import Mathlib

/-!
Shallow embedding of the multi-archive ZIM search aggregator from
`qwen_server/zim_tools.py`: the language filter, per-archive search
(full-text path and fallback title scan), result aggregation over all
archives, suggestion aggregation, entry fetching with redirect
resolution, and archive path resolution.

Modelling conventions: Python strings are Lean strings with
character-wise lowering; the external markdown renderer is an explicit
function parameter; fallible external calls (archive opening, index
queries, entry lookup, content reads) are modelled with `Option` and
`Except`; floating-point relevance scores are modelled as rationals.
-/

namespace ZimTools

/-- Character-wise lowering, modelling Python `str.lower`. -/
def pyLower (s : String) : String := ⟨s.data.map Char.toLower⟩

/-- Python substring test `needle in hay`. -/
def strIn (needle hay : String) : Bool := decide (needle.data <:+: hay.data)

/-- Python slicing `s[:n]` (by characters). -/
def strTake (n : Nat) (s : String) : String := ⟨s.data.take n⟩

/-- Python `len(s)` (character count). -/
def strLen (s : String) : Nat := s.data.length

/-- Python-style truncation: `s[:n] + "..."` when `len(s) > n`, else `s`. -/
def truncEllipsis (n : Nat) (s : String) : String :=
  if n < strLen s then strTake n s ++ "..." else s

/-- The fixed parenthesized language-name markers from `_is_english_content`. -/
def foreign_indicators : List String :=
  ["(Español)", "(Français)", "(Deutsch)", "(Italiano)", "(Polski)",
   "(Português)", "(Русский)", "(简体中文)", "(正體中文)", "(Magyar)",
   "(العربية)", "(日本語)", "(한국어)", "(Nederlands)", "(Svenska)",
   "(Türkçe)", "(Čeština)", "(Ελληνικά)", "(Български)"]

/-- The fixed non-English boilerplate phrases from `_is_english_content`. -/
def non_english_phrases : List String :=
  ["cet article", "cette page", "artikel", "artículo", "artigo",
   "данная статья", "本文", "이 문서", "dit artikel", "questa pagina"]

/-- The language filter `_is_english_content(title, content)`. -/
def _is_english_content (title content : String) : Bool :=
  if foreign_indicators.any (fun ind => strIn (pyLower ind) (pyLower title)) then
    false
  else if non_english_phrases.any
      (fun p => strIn p (strTake 200 (pyLower content))) then
    false
  else
    true

/-- A redirect target entry: the fields of the target read by the code. -/
structure RawEntry where
  title : String
  content : String
  /-- Whether reading and rendering the target's content succeeds. -/
  contentOk : Bool
deriving DecidableEq

/-- An archive entry as seen through the libzim entry interface. -/
structure Entry where
  title : String
  path : String
  /-- Raw HTML content (decoded bytes). -/
  content : String
  /-- Whether reading and rendering this entry's content succeeds. -/
  contentOk : Bool
  /-- `some t` when the entry is a redirect with target `t`. -/
  redirectTarget : Option RawEntry
deriving DecidableEq

/-- One ranked result from the full-text index. -/
structure FtResult where
  path : String
  url : String
  score : ℚ
  snippet : String
deriving DecidableEq

/-- One result from the suggestion index. -/
structure SuggResult where
  title : String
  path : String
  url : String
deriving DecidableEq

/-- One opened ZIM archive, exposing the libzim capabilities the code uses.
Pseudo-random draws of `get_random_entry` are modelled as a stream of
outcomes (`none` = the draw raises). -/
structure ArchiveModel where
  /-- `zim_path.name`, used as `source_zim` in every produced result. -/
  name : String
  has_fulltext_index : Bool
  /-- Full-text query: `error` when the searcher raises, else the
  estimated match count paired with the ranked result stream. -/
  ft : String → Except Unit (Nat × List FtResult)
  /-- Suggestion query, same shape as full-text search. -/
  suggest : String → Except Unit (Nat × List SuggResult)
  getEntryByTitle : String → Option Entry
  getEntryByPath : String → Option Entry
  entry_count : Nat
  randomDraws : List (Option Entry)

/-- A search hit as assembled by `_search_archive`. -/
structure Hit where
  title : String
  path : String
  url : String
  score : ℚ
  snippet : String
  content_preview : String
  source_zim : String
deriving DecidableEq

/-- A suggestion as assembled by `_get_suggestions_from_archive`. -/
structure Suggestion where
  title : String
  path : String
  url : String
  source_zim : String
deriving DecidableEq

/-- Content preview of an entry during search: a synthetic redirect note
for redirects, otherwise the rendered content truncated to 500 chars. -/
def entry_preview (render : String → String) (e : Entry) : String :=
  match e.redirectTarget with
  | some t => "Redirect to: " ++ t.title
  | none => truncEllipsis 500 (render e.content)

/-- Whether computing the preview of `e` succeeds (for redirects no
content is read; otherwise the content read can raise). -/
def content_read_ok (e : Entry) : Bool :=
  match e.redirectTarget with
  | some _ => true
  | none => e.contentOk

/-- Processing of one full-text result inside the indexed-search loop:
entry lookup by path (raise = skipped), preview computation (raise =
skipped), then the language filter. `none` means no hit is appended. -/
def process_ft_result (a : ArchiveModel) (render : String → String)
    (r : FtResult) : Option Hit :=
  match a.getEntryByPath r.path with
  | none => none
  | some entry =>
    if content_read_ok entry then
      let preview := entry_preview render entry
      if _is_english_content entry.title preview then
        some ⟨entry.title, r.path, r.url, r.score, r.snippet, preview, a.name⟩
      else none
    else none

/-- The indexed-search loop `for i in range(n): result = getResults(i, 1)[0] ...`. -/
def ft_hits (a : ArchiveModel) (render : String → String)
    (res : List FtResult) (n : Nat) : List Hit :=
  (List.range n).filterMap (fun i => (res.get? i).bind (process_ft_result a render))

/-- Whether the query occurs case-insensitively in the entry title:
`query.lower() in entry.title.lower()`. -/
def title_match (q : String) (e : Entry) : Bool :=
  strIn (pyLower q) (pyLower e.title)

/-- The hit built on the fallback path: fixed score 1.0, url `"/" + path`,
snippet = preview truncated to 200 chars. -/
def mk_fallback_hit (a : ArchiveModel) (render : String → String) (e : Entry) : Hit :=
  ⟨e.title, e.path, "/" ++ e.path, 1,
   truncEllipsis 200 (entry_preview render e), entry_preview render e, a.name⟩

/-- The fallback title scan over the stream of pseudo-random draws, with
the running count of title matches. The loop breaks when the count has
reached `max_results`; a draw that raises (`none`) or an entry whose
content read raises is skipped without touching the count; a title match
increments the count whether or not the language filter keeps it. -/
def fallback_scan (a : ArchiveModel) (render : String → String) (q : String)
    (max_results : Nat) : List (Option Entry) → Nat → List Hit
  | [], _ => []
  | d :: rest, count =>
    if max_results ≤ count then []
    else
      match d with
      | none => fallback_scan a render q max_results rest count
      | some e =>
        if title_match q e then
          if content_read_ok e then
            if _is_english_content e.title (entry_preview render e) then
              mk_fallback_hit a render e ::
                fallback_scan a render q max_results rest (count + 1)
            else
              fallback_scan a render q max_results rest (count + 1)
          else
            fallback_scan a render q max_results rest count
        else
          fallback_scan a render q max_results rest count

/-- `_search_archive(zim_path, query, max_results)` for an archive that
opened successfully. Full-text path only when the archive has an index,
the searcher does not raise, and the estimated match count is positive;
otherwise the fallback title scan over `min(1000, entry_count)` draws. -/
def _search_archive (a : ArchiveModel) (render : String → String)
    (q : String) (max_results : Nat) : List Hit :=
  let fb := fallback_scan a render q max_results
    (a.randomDraws.take (min 1000 a.entry_count)) 0
  if a.has_fulltext_index then
    match a.ft q with
    | Except.error _ => fb
    | Except.ok (estimated, res) =>
      if 0 < estimated then ft_hits a render res (min max_results estimated)
      else fb
  else fb

/-- `_get_suggestions_from_archive(zim_path, query, max_suggestions)` for
an archive that opened successfully: loop over
`range(min(max_suggestions, estimated))`, breaking on a failed page
fetch; any internal error yields the empty list. -/
def _get_suggestions_from_archive (a : ArchiveModel) (q : String)
    (max_suggestions : Nat) : List Suggestion :=
  match a.suggest q with
  | Except.error _ => []
  | Except.ok (est, stream) =>
    (stream.take (min max_suggestions est)).map
      (fun s => ⟨s.title, s.path, s.url, a.name⟩)

/-- One file found by `glob("*.zim")`: its path and the outcome of
opening and searching it (`none` = opening or searching raises). -/
structure ArchiveEntry where
  path : String
  outcome : Option ArchiveModel

/-- The environment of a call: the data directory, the filesystem, the
enumeration of `*.zim` files, and archive opening for resolved paths. -/
structure ZimEnv where
  data_path : String
  data_dir_exists : Bool
  file_exists : String → Bool
  archives : List ArchiveEntry
  openArchive : String → Option ArchiveModel

/-- `os.path.isabs` on a POSIX system: the path starts with a slash. -/
def isAbs (p : String) : Bool :=
  match p.data with
  | c :: _ => c == '/'
  | [] => false

/-- `_resolve_zim_file(zim_file)`: absolute paths are only tried
literally; relative names are tried inside the data directory, then with
the `.zim` extension appended. -/
def _resolve_zim_file (env : ZimEnv) (zim_file : String) : Option String :=
  if isAbs zim_file then
    if env.file_exists zim_file then some zim_file else none
  else
    if env.file_exists (env.data_path ++ "/" ++ zim_file) then
      some (env.data_path ++ "/" ++ zim_file)
    else if env.file_exists (env.data_path ++ "/" ++ zim_file ++ ".zim") then
      some (env.data_path ++ "/" ++ zim_file ++ ".zim")
    else none

/-- The `for zim_path in glob: try: results.extend(f(...)) except: continue`
aggregation loop, shared by search and suggestions: a failing archive
contributes nothing. -/
def agg_loop (f : ArchiveModel → List α) : List ArchiveEntry → List α → List α
  | [], acc => acc
  | ae :: rest, acc =>
    match ae.outcome with
    | none => agg_loop f rest acc
    | some a => agg_loop f rest (acc ++ f a)

/-- Result of `search_zim`, keeping the success/error shape of the JSON
payload and its (possibly empty) result list. -/
inductive SearchResult where
  | ok (query : String) (results : List Hit)
  | failure (msg : String) (results : List Hit)
deriving DecidableEq

/-- The hit list carried by a `search_zim` result. -/
def SearchResult.results : SearchResult → List Hit
  | .ok _ rs => rs
  | .failure _ rs => rs

/-- `search_zim(query, zim_file, max_results)`. -/
def search_zim (env : ZimEnv) (render : String → String) (q : String)
    (zim_file : Option String) (max_results : Nat) : SearchResult :=
  match zim_file with
  | some zf =>
    match _resolve_zim_file env zf with
    | none => .failure ("ZIM file not found: " ++ zf) []
    | some p =>
      match env.openArchive p with
      | none => .failure "Search error" []
      | some a => .ok q ((_search_archive a render q max_results).take max_results)
  | none =>
    if env.data_dir_exists then
      .ok q ((agg_loop (fun a => _search_archive a render q (max_results / 2))
        env.archives []).take max_results)
    else
      .failure "ZIM data directory not found" []

/-- Result of `get_zim_suggestions`. -/
inductive SuggestResult where
  | ok (query : String) (suggestions : List Suggestion)
  | failure (msg : String) (suggestions : List Suggestion)
deriving DecidableEq

/-- The suggestion list carried by a `get_zim_suggestions` result. -/
def SuggestResult.suggestions : SuggestResult → List Suggestion
  | .ok _ ss => ss
  | .failure _ ss => ss

/-- `get_zim_suggestions(query, zim_file, max_suggestions)`. -/
def get_zim_suggestions (env : ZimEnv) (q : String)
    (zim_file : Option String) (max_suggestions : Nat) : SuggestResult :=
  match zim_file with
  | some zf =>
    match _resolve_zim_file env zf with
    | none => .failure ("ZIM file not found: " ++ zf) []
    | some p =>
      match env.openArchive p with
      | none => .failure "Error getting suggestions" []
      | some a =>
        .ok q ((_get_suggestions_from_archive a q max_suggestions).take max_suggestions)
  | none =>
    if env.data_dir_exists then
      .ok q ((agg_loop (fun a => _get_suggestions_from_archive a q (max_suggestions / 2))
        env.archives []).take max_suggestions)
    else
      .failure "ZIM data directory not found" []

/-- Result of `get_zim_entry` / `_get_entry_from_archive`. -/
inductive EntryResult where
  | ok (title path content source_zim : String)
  | failure (msg : String)
deriving DecidableEq

/-- Rendering the looked-up entry into the returned JSON payload: a
redirect yields the notice naming the target title followed by the
target's rendered content; a content-read failure yields an error. -/
def render_entry (a : ArchiveModel) (render : String → String) (e : Entry) : EntryResult :=
  match e.redirectTarget with
  | some t =>
    if t.contentOk then
      .ok e.title e.path
        ("This page redirects to: " ++ t.title ++ "\n\nContent:\n" ++ render t.content)
        a.name
    else .failure "Error reading entry content"
  | none =>
    if e.contentOk then .ok e.title e.path (render e.content) a.name
    else .failure "Error reading entry content"

/-- Entry lookup inside one archive: by exact title first, then by path. -/
def lookup_entry (a : ArchiveModel) (s : String) : Option Entry :=
  match a.getEntryByTitle s with
  | some e => some e
  | none => a.getEntryByPath s

/-- `_get_entry_from_archive(zim_path, title)` for an opened archive. -/
def _get_entry_from_archive (a : ArchiveModel) (render : String → String)
    (title : String) : EntryResult :=
  match lookup_entry a title with
  | some e => render_entry a render e
  | none => .failure ("Entry not found in " ++ a.name)

/-- Whether one enumerated archive produces a non-error entry with
content for `title` (a raising archive produces nothing). -/
def archive_entry_ok (render : String → String) (title : String)
    (ae : ArchiveEntry) : Bool :=
  match ae.outcome with
  | none => false
  | some a =>
    match _get_entry_from_archive a render title with
    | .ok _ _ _ _ => true
    | .failure _ => false

/-- The all-archives loop of `get_zim_entry`: first archive whose result
carries content wins; raising or erroring archives are skipped. -/
def entry_search_loop (render : String → String) (title : String) :
    List ArchiveEntry → EntryResult
  | [] => .failure ("Entry '" ++ title ++ "' not found in any ZIM file")
  | ae :: rest =>
    match ae.outcome with
    | none => entry_search_loop render title rest
    | some a =>
      match _get_entry_from_archive a render title with
      | .ok t p c s => .ok t p c s
      | .failure _ => entry_search_loop render title rest

/-- `get_zim_entry(title, zim_file)`. -/
def get_zim_entry (env : ZimEnv) (render : String → String) (title : String)
    (zim_file : Option String) : EntryResult :=
  match zim_file with
  | some zf =>
    match _resolve_zim_file env zf with
    | none => .failure ("ZIM file not found: " ++ zf)
    | some p =>
      match env.openArchive p with
      | none => .failure "Error retrieving entry"
      | some a => _get_entry_from_archive a render title
  | none =>
    if env.data_dir_exists then entry_search_loop render title env.archives
    else .failure "ZIM data directory not found"

/-! ### Helper lemmas -/

/-- Lowering preserves substring containment. -/
theorem strIn_lower_of_strIn {a b : String} (h : strIn a b = true) :
    strIn (pyLower a) (pyLower b) = true := by
  simp only [strIn, decide_eq_true_eq] at h ⊢
  exact h.map Char.toLower

/-- The aggregation loop concatenates the per-archive results of the
archives that open and search without raising, in enumeration order. -/
theorem agg_loop_eq (f : ArchiveModel → List α) :
    ∀ (l : List ArchiveEntry) (acc : List α),
      agg_loop f l acc =
        acc ++ ((l.filterMap ArchiveEntry.outcome).map f).flatten := by
  intro l
  induction l with
  | nil => intro acc; simp [agg_loop]
  | cons ae rest ih =>
    intro acc
    cases h : ae.outcome with
    | none => simp [agg_loop, h, ih, List.filterMap_cons]
    | some a => simp [agg_loop, h, ih, List.filterMap_cons]

/-! ### Claim theorems -/

/-- Claim C1: for every query and `max_results = N`, `search_zim` returns
at most `N` hits, in single-archive and all-archives mode alike, and
`get_zim_suggestions` returns at most `max_suggestions = M` suggestions. -/
theorem search_and_suggestion_counts_capped (env : ZimEnv)
    (render : String → String) (q : String) (zf : Option String) (n m : Nat) :
    (search_zim env render q zf n).results.length ≤ n ∧
    (get_zim_suggestions env q zf m).suggestions.length ≤ m := by
  constructor
  · cases zf with
    | some f =>
      cases hres : _resolve_zim_file env f with
      | none => simp [search_zim, hres, SearchResult.results]
      | some p =>
        cases hop : env.openArchive p with
        | none => simp [search_zim, hres, hop, SearchResult.results]
        | some a =>
          simp only [search_zim, hres, hop, SearchResult.results]
          exact List.length_take_le n _
    | none =>
      cases hd : env.data_dir_exists with
      | false => simp [search_zim, hd, SearchResult.results]
      | true =>
        simp only [search_zim, hd, if_true, SearchResult.results]
        exact List.length_take_le n _
  · cases zf with
    | some f =>
      cases hres : _resolve_zim_file env f with
      | none => simp [get_zim_suggestions, hres, SuggestResult.suggestions]
      | some p =>
        cases hop : env.openArchive p with
        | none => simp [get_zim_suggestions, hres, hop, SuggestResult.suggestions]
        | some a =>
          simp only [get_zim_suggestions, hres, hop, SuggestResult.suggestions]
          exact List.length_take_le m _
    | none =>
      cases hd : env.data_dir_exists with
      | false => simp [get_zim_suggestions, hd, SuggestResult.suggestions]
      | true =>
        simp only [get_zim_suggestions, hd, if_true, SuggestResult.suggestions]
        exact List.length_take_le m _

/-- Claim C2: in all-archives mode, a raising archive is absorbed at the
per-archive boundary: the call returns a non-error result whose hits are
exactly the (budgeted, truncated) contributions of the archives that did
not fail. -/
theorem search_isolates_failing_archive (env : ZimEnv) (render : String → String)
    (q : String) (n : Nat) (hdir : env.data_dir_exists = true) :
    search_zim env render q none n =
      SearchResult.ok q
        ((((env.archives.filterMap ArchiveEntry.outcome).map
          (fun a => _search_archive a render q (n / 2))).flatten).take n) := by
  simp [search_zim, hdir, agg_loop_eq]

/-! ### Concrete material for witnesses and counterexamples -/

/-- Identity renderer used in concrete evaluations. -/
def render0 : String → String := fun s => s

def eAlpha : Entry := ⟨"Systemd Alpha", "A/alpha", "alpha unit manager", true, none⟩

def eBeta : Entry := ⟨"Systemd Beta", "A/beta", "beta unit manager", true, none⟩

def eGamma : Entry := ⟨"Systemd Gamma", "A/gamma", "gamma unit manager", true, none⟩

def eForeign : Entry := ⟨"Systemd (Deutsch)", "A/de", "einheit", true, none⟩

/-- An index-less archive whose random draws are the given stream. -/
def mk_fb_archive (nm : String) (draws : List (Option Entry)) : ArchiveModel :=
  ⟨nm, false, fun _ => Except.error (), fun _ => Except.error (),
   fun _ => none, fun _ => none, draws.length, draws⟩

def aA : ArchiveModel := mk_fb_archive "a.zim" [some eAlpha]

def aC : ArchiveModel := mk_fb_archive "c.zim" [some eGamma]

/-- Three enumerated archives, the middle one raising when searched. -/
def env3 : ZimEnv :=
  ⟨"/data/zim", true, fun _ => false,
   [⟨"/data/zim/a.zim", some aA⟩, ⟨"/data/zim/b.zim", none⟩,
    ⟨"/data/zim/c.zim", some aC⟩],
   fun _ => none⟩

/-- One enumerated archive holding two matching English entries. -/
def envC3 : ZimEnv :=
  ⟨"/data/zim", true, fun _ => false,
   [⟨"/data/zim/w.zim", some (mk_fb_archive "w.zim" [some eAlpha, some eBeta])⟩],
   fun _ => none⟩

/-- Witness for C2: with archives `a.zim`, a raising `b.zim`, and
`c.zim`, the call succeeds and returns exactly the hits of `a.zim` and
`c.zim`. -/
theorem search_isolates_failing_archive_witness :
    search_zim env3 render0 "systemd" none 4 =
      SearchResult.ok "systemd"
        [mk_fallback_hit aA render0 eAlpha, mk_fallback_hit aC render0 eGamma] := by
  rw [search_isolates_failing_archive env3 render0 "systemd" 4 rfl]
  decide

/-- Follows claim C3's words, not the code: the all-archives aggregation
in which each archive is allotted `max_results` divided by the number of
archives present. Compare with `search_zim`, which divides by 2. -/
def search_zim_fair_budget (env : ZimEnv) (render : String → String)
    (q : String) (n : Nat) : SearchResult :=
  if env.data_dir_exists then
    SearchResult.ok q
      ((((env.archives.filterMap ArchiveEntry.outcome).map
        (fun a => _search_archive a render q (n / env.archives.length))).flatten).take n)
  else SearchResult.failure "ZIM data directory not found" []

/-- Counterexample to claim C3 as stated: with a single archive holding
two matching entries and `max_results = 2`, the code searches it with
budget `2 / 2 = 1` and returns one hit, not the two hits the claimed
budget `2 / archive_count = 2` would produce. -/
theorem per_archive_budget_counterexample :
    search_zim envC3 render0 "systemd" none 2 ≠
      search_zim_fair_budget envC3 render0 "systemd" 2 := by
  decide

/-- Claim C3 as amended: in all-archives mode each archive is searched
with budget `max_results / 2` (a fixed divisor of 2, independent of the
archive count), the per-archive hit lists are concatenated in
archive-enumeration order and truncated to `max_results`; suggestions
follow the identical rule with budget `max_suggestions / 2`. -/
theorem per_archive_budget_amended (env : ZimEnv) (render : String → String)
    (q : String) (n m : Nat) (hdir : env.data_dir_exists = true) :
    search_zim env render q none n =
      SearchResult.ok q
        ((((env.archives.filterMap ArchiveEntry.outcome).map
          (fun a => _search_archive a render q (n / 2))).flatten).take n) ∧
    get_zim_suggestions env q none m =
      SuggestResult.ok q
        ((((env.archives.filterMap ArchiveEntry.outcome).map
          (fun a => _get_suggestions_from_archive a q (m / 2))).flatten).take m) := by
  constructor
  · simp [search_zim, hdir, agg_loop_eq]
  · simp [get_zim_suggestions, hdir, agg_loop_eq]

/-- Witness for the amended C3 at a concrete environment. -/
theorem per_archive_budget_amended_witness :
    search_zim env3 render0 "systemd" none 4 =
      SearchResult.ok "systemd"
        ((((env3.archives.filterMap ArchiveEntry.outcome).map
          (fun a => _search_archive a render0 "systemd" (4 / 2))).flatten).take 4) ∧
    get_zim_suggestions env3 "systemd" none 4 =
      SuggestResult.ok "systemd"
        ((((env3.archives.filterMap ArchiveEntry.outcome).map
          (fun a => _get_suggestions_from_archive a "systemd" (4 / 2))).flatten).take 4) :=
  per_archive_budget_amended env3 render0 "systemd" 4 4 rfl

/-- Claim C6: the language filter rejects a title containing one of the
fixed parenthesized markers regardless of content, rejects content whose
first 200 lowered characters contain one of the fixed non-English
phrases, and accepts everything else (allow-by-default; the title test
is performed case-insensitively by the code). -/
theorem is_english_content_spec (title content : String) :
    ((∃ ind ∈ foreign_indicators, strIn ind title = true) →
      _is_english_content title content = false) ∧
    ((∃ p ∈ non_english_phrases, strIn p (strTake 200 (pyLower content)) = true) →
      _is_english_content title content = false) ∧
    ((∀ ind ∈ foreign_indicators, strIn (pyLower ind) (pyLower title) = false) →
      (∀ p ∈ non_english_phrases, strIn p (strTake 200 (pyLower content)) = false) →
      _is_english_content title content = true) := by
  refine ⟨?_, ?_, ?_⟩
  · rintro ⟨ind, hmem, hin⟩
    have h : foreign_indicators.any (fun i => strIn (pyLower i) (pyLower title)) = true :=
      List.any_eq_true.mpr ⟨ind, hmem, strIn_lower_of_strIn hin⟩
    simp [_is_english_content, h]
  · rintro ⟨p, hmem, hin⟩
    have h : non_english_phrases.any
        (fun p => strIn p (strTake 200 (pyLower content))) = true :=
      List.any_eq_true.mpr ⟨p, hmem, hin⟩
    unfold _is_english_content
    split
    · rfl
    · simp [h]
  · intro h1 h2
    have e1 : foreign_indicators.any (fun i => strIn (pyLower i) (pyLower title)) = false := by
      simp only [List.any_eq_false]
      intro i hi
      simp [h1 i hi]
    have e2 : non_english_phrases.any
        (fun p => strIn p (strTake 200 (pyLower content))) = false := by
      simp only [List.any_eq_false]
      intro p hp
      simp [h2 p hp]
    simp [_is_english_content, e1, e2]

/-- Witness for C6: a title carrying the "(Deutsch)" marker is rejected
whatever the content. -/
theorem is_english_content_spec_witness :
    (∃ ind ∈ foreign_indicators, strIn ind "Systemd (Deutsch)" = true) ∧
    _is_english_content "Systemd (Deutsch)" "perfectly english text" = false :=
  ⟨⟨"(Deutsch)", by decide, by decide⟩,
   (is_english_content_spec "Systemd (Deutsch)" "perfectly english text").1
     ⟨"(Deutsch)", by decide, by decide⟩⟩

/-- Looking up `l.get? i` for `i` ranging over `range n` and filtering is
the same as filtering the first `n` stream elements in order. -/
theorem range_filterMap_bind (f : α → Option β) :
    ∀ (n : Nat) (l : List α),
      (List.range n).filterMap (fun i => (l.get? i).bind f) =
        (l.take n).filterMap f := by
  intro n
  induction n with
  | zero => intro l; simp
  | succ k ih =>
    intro l
    rw [List.range_succ, List.filterMap_append, ih, List.take_succ,
      List.filterMap_append]
    congr 1
    simp only [List.filterMap_cons, List.filterMap_nil, List.get?_eq_getElem?]
    cases h : l[k]? with
    | none => simp [h]
    | some a =>
      cases hf : f a <;> simp [h, hf, Option.toList, List.filterMap_cons]

/-- The indexed-search loop equals an order-preserving filter of the
first `n` ranked stream elements. -/
theorem ft_hits_eq_take (a : ArchiveModel) (render : String → String)
    (res : List FtResult) (n : Nat) :
    ft_hits a render res n = (res.take n).filterMap (process_ft_result a render) :=
  range_filterMap_bind _ n res

/-- The fallback scan never returns more than `max_results - count` hits. -/
theorem fallback_scan_length_le (a : ArchiveModel) (render : String → String)
    (q : String) (n : Nat) :
    ∀ (ds : List (Option Entry)) (c : Nat),
      (fallback_scan a render q n ds c).length ≤ n - c := by
  intro ds
  induction ds with
  | nil => intro c; simp [fallback_scan]
  | cons d rest ih =>
    intro c
    by_cases hc : n ≤ c
    · simp [fallback_scan, hc]
    · cases d with
      | none =>
        simp only [fallback_scan, if_neg hc]
        exact ih c
      | some e =>
        simp only [fallback_scan, if_neg hc]
        cases hm : title_match q e with
        | false => simpa [hm] using ih c
        | true =>
          cases hco : content_read_ok e with
          | false => simpa [hm, hco] using ih c
          | true =>
            cases he : _is_english_content e.title (entry_preview render e) with
            | false =>
              simp only [hm, hco, he, if_true, if_false, Bool.false_eq_true]
              have := ih (c + 1)
              omega
            | true =>
              simp only [hm, hco, he, if_true, List.length_cons]
              have := ih (c + 1)
              omega

/-- Every hit produced by the fallback scan has score exactly 1 and a
title containing the query case-insensitively. -/
theorem fallback_scan_mem (a : ArchiveModel) (render : String → String)
    (q : String) (n : Nat) :
    ∀ (ds : List (Option Entry)) (c : Nat) (h : Hit),
      h ∈ fallback_scan a render q n ds c →
      h.score = 1 ∧ strIn (pyLower q) (pyLower h.title) = true := by
  intro ds
  induction ds with
  | nil => intro c h hmem; simp [fallback_scan] at hmem
  | cons d rest ih =>
    intro c h hmem
    by_cases hc : n ≤ c
    · simp [fallback_scan, hc] at hmem
    · cases d with
      | none =>
        simp only [fallback_scan, if_neg hc] at hmem
        exact ih c h hmem
      | some e =>
        simp only [fallback_scan, if_neg hc] at hmem
        cases hm : title_match q e with
        | false =>
          simp only [hm, Bool.false_eq_true, if_false] at hmem
          exact ih c h hmem
        | true =>
          cases hco : content_read_ok e with
          | false =>
            simp only [hm, hco, if_true, Bool.false_eq_true, if_false] at hmem
            exact ih c h hmem
          | true =>
            cases he : _is_english_content e.title (entry_preview render e) with
            | false =>
              simp only [hm, hco, he, if_true, Bool.false_eq_true, if_false] at hmem
              exact ih (c + 1) h hmem
            | true =>
              simp only [hm, hco, he, if_true, List.mem_cons] at hmem
              rcases hmem with rfl | hmem
              · refine ⟨rfl, ?_⟩
                have : title_match q e = true := hm
                simpa [title_match, mk_fallback_hit] using this
              · exact ih (c + 1) h hmem

/-- Claim C5: on the fallback path (no index, or the full-text searcher
raised) the per-archive search scans a stream of at most
`min(1000, entry_count) ≤ 1000` pseudo-random draws, keeps only entries
whose title contains the query case-insensitively, collects at most
`max_results` title matches, and gives every returned hit score
exactly 1. -/
theorem fallback_scan_spec (a : ArchiveModel) (render : String → String)
    (q : String) (n : Nat) :
    ((a.has_fulltext_index = false ∨ a.ft q = Except.error ()) →
      _search_archive a render q n =
        fallback_scan a render q n
          (a.randomDraws.take (min 1000 a.entry_count)) 0) ∧
    (a.randomDraws.take (min 1000 a.entry_count)).length ≤ 1000 ∧
    (∀ ds c h, h ∈ fallback_scan a render q n ds c →
      h.score = 1 ∧ strIn (pyLower q) (pyLower h.title) = true) ∧
    (∀ ds c, (fallback_scan a render q n ds c).length ≤ n - c) := by
  refine ⟨?_, ?_, fallback_scan_mem a render q n, fallback_scan_length_le a render q n⟩
  · intro hcase
    unfold _search_archive
    rcases hcase with hidx | herr
    · simp [hidx]
    · cases hb : a.has_fulltext_index
      · simp [hb]
      · simp [hb, herr]
  · calc (a.randomDraws.take (min 1000 a.entry_count)).length
        ≤ min 1000 a.entry_count := List.length_take_le _ _
      _ ≤ 1000 := min_le_left _ _

/-- Witness for C5 at a concrete index-less archive. -/
theorem fallback_scan_spec_witness :
    _search_archive aA render0 "systemd" 2 =
      fallback_scan aA render0 "systemd" 2
        (aA.randomDraws.take (min 1000 aA.entry_count)) 0 ∧
    (mk_fallback_hit aA render0 eAlpha).score = 1 ∧
    (fallback_scan aA render0 "systemd" 2 [some eAlpha] 0).length ≤ 2 - 0 :=
  ⟨(fallback_scan_spec aA render0 "systemd" 2).1 (Or.inl rfl),
   ((fallback_scan_spec aA render0 "systemd" 2).2.2.1 [some eAlpha] 0
     (mk_fallback_hit aA render0 eAlpha) (by decide)).1,
   (fallback_scan_spec aA render0 "systemd" 2).2.2.2 [some eAlpha] 0⟩

/-- An indexed archive whose full-text search succeeds with zero
estimated matches, while its random draws hold a matching entry. -/
def aZeroEst : ArchiveModel :=
  ⟨"z.zim", true, fun _ => Except.ok (0, []), fun _ => Except.error (),
   fun _ => none, fun _ => none, 1, [some eAlpha]⟩

/-- Counterexample to claim C4 as stated: this archive has a full-text
index and its indexed query succeeds with estimated count 0, so the
claim predicts `min(max_results, 0) = 0` hits and no title scan; the
code instead falls through to the sample scan and returns a hit. -/
theorem fulltext_zero_matches_counterexample :
    aZeroEst.has_fulltext_index = true ∧
    aZeroEst.ft "systemd" = Except.ok (0, []) ∧
    _search_archive aZeroEst render0 "systemd" 5 ≠ [] :=
  ⟨rfl, rfl, by decide⟩

/-- Claim C4 as amended: when the archive has a full-text index, the
indexed query succeeds and its estimated count is positive, the search
returns an order-preserving selection of the first
`min(max_results, estimated)` ranked stream elements (hence at most that
many hits, in the index's native order); the bounded-sample title scan
runs exactly when the index is absent, the indexed query raises, or the
estimated count is zero. -/
theorem fulltext_path_amended (a : ArchiveModel) (render : String → String)
    (q : String) (n : Nat) :
    (∀ est res, a.has_fulltext_index = true → a.ft q = Except.ok (est, res) →
      0 < est →
      _search_archive a render q n =
        (res.take (min n est)).filterMap (process_ft_result a render) ∧
      (_search_archive a render q n).length ≤ min n est) ∧
    ((a.has_fulltext_index = false ∨ a.ft q = Except.error () ∨
        (∃ res, a.ft q = Except.ok (0, res))) →
      _search_archive a render q n =
        fallback_scan a render q n
          (a.randomDraws.take (min 1000 a.entry_count)) 0) := by
  constructor
  · intro est res hidx hft hpos
    have he : _search_archive a render q n =
        (res.take (min n est)).filterMap (process_ft_result a render) := by
      unfold _search_archive
      simp [hidx, hft, hpos, ft_hits_eq_take]
    refine ⟨he, ?_⟩
    rw [he]
    calc ((res.take (min n est)).filterMap (process_ft_result a render)).length
        ≤ (res.take (min n est)).length := List.length_filterMap_le _ _
      _ ≤ min n est := List.length_take_le _ _
  · intro hcase
    unfold _search_archive
    rcases hcase with h | h | ⟨res, h⟩
    · simp [h]
    · cases hb : a.has_fulltext_index
      · simp [hb]
      · simp [hb, h]
    · cases hb : a.has_fulltext_index
      · simp [hb]
      · simp [hb, h]

def ftR1 : FtResult := ⟨"A/alpha", "/A/alpha", 3, "snippet one"⟩

def ftR2 : FtResult := ⟨"A/beta", "/A/beta", 2, "snippet two"⟩

/-- An archive with a working full-text index over two entries. -/
def aFt : ArchiveModel :=
  ⟨"ft.zim", true, fun _ => Except.ok (2, [ftR1, ftR2]),
   fun _ => Except.error (), fun _ => none,
   fun p => if p = "A/alpha" then some eAlpha
     else if p = "A/beta" then some eBeta else none,
   2, []⟩

/-- Witness for the amended C4 on the indexed path. -/
theorem fulltext_path_amended_witness :
    _search_archive aFt render0 "systemd" 1 =
      (([ftR1, ftR2]).take (min 1 2)).filterMap (process_ft_result aFt render0) ∧
    (_search_archive aFt render0 "systemd" 1).length ≤ min 1 2 :=
  (fulltext_path_amended aFt render0 "systemd" 1).1 2 [ftR1, ftR2] rfl rfl
    (by decide)

/-- A sample stream holding one foreign-titled match before two
English-titled matches. -/
def aC10 : ArchiveModel :=
  mk_fb_archive "w.zim" [some eForeign, some eAlpha, some eBeta]

/-- Claim C10: the fallback counter counts every case-insensitive title
match, including matches the language filter then discards: with
`max_results = 2` and a sample whose three entries all title-match but
whose first is foreign-titled, the scan burns one count on the filtered
foreign entry and stops after the first English hit, returning 1 < 2
hits although the sample holds 2 matching English-titled entries. -/
theorem fallback_counter_includes_filtered :
    ((aC10.randomDraws.filterMap id).filter
        (fun e => title_match "systemd" e &&
          _is_english_content e.title (entry_preview render0 e))).length = 2 ∧
    _search_archive aC10 render0 "systemd" 2 =
      [mk_fallback_hit aC10 render0 eAlpha] ∧
    (_search_archive aC10 render0 "systemd" 2).length < 2 :=
  ⟨by decide, by decide, by decide⟩

/-- Archives that neither open nor produce a content-bearing entry are
skipped by the all-archives entry loop. -/
theorem entry_search_loop_skip (render : String → String) (title : String) :
    ∀ (pre rest : List ArchiveEntry),
      (∀ ae ∈ pre, archive_entry_ok render title ae = false) →
      entry_search_loop render title (pre ++ rest) =
        entry_search_loop render title rest := by
  intro pre
  induction pre with
  | nil => intro rest _; rfl
  | cons ae pre' ih =>
    intro rest hall
    have hae : archive_entry_ok render title ae = false :=
      hall ae (List.mem_cons_self _ _)
    have hrest : ∀ ae' ∈ pre', archive_entry_ok render title ae' = false :=
      fun ae' h => hall ae' (List.mem_cons_of_mem _ h)
    cases ho : ae.outcome with
    | none =>
      simp only [List.cons_append, entry_search_loop, ho]
      exact ih rest hrest
    | some a =>
      cases hr : _get_entry_from_archive a render title with
      | ok t p c s => simp [archive_entry_ok, ho, hr] at hae
      | failure msg =>
        simp only [List.cons_append, entry_search_loop, ho, hr]
        exact ih rest hrest

/-- Claim C8: in all-archives scope the archives are tried in
enumeration order and the first one producing a non-error entry with
content wins, whatever comes after it; inside one archive the lookup
tries the exact title first and falls back to a path lookup. -/
theorem entry_lookup_first_match (env : ZimEnv) (render : String → String)
    (title : String) :
    (∀ pre good post a t p c s,
      env.data_dir_exists = true →
      env.archives = pre ++ good :: post →
      (∀ ae ∈ pre, archive_entry_ok render title ae = false) →
      good.outcome = some a →
      _get_entry_from_archive a render title = EntryResult.ok t p c s →
      get_zim_entry env render title none = EntryResult.ok t p c s) ∧
    (∀ a e, a.getEntryByTitle title = some e →
      _get_entry_from_archive a render title = render_entry a render e) ∧
    (∀ a e, a.getEntryByTitle title = none → a.getEntryByPath title = some e →
      _get_entry_from_archive a render title = render_entry a render e) := by
  refine ⟨?_, ?_, ?_⟩
  · intro pre good post a t p c s hdir harch hpre hgood hres
    simp only [get_zim_entry, hdir, if_true]
    rw [harch, entry_search_loop_skip render title pre (good :: post) hpre]
    simp [entry_search_loop, hgood, hres]
  · intro a e h
    simp [_get_entry_from_archive, lookup_entry, h]
  · intro a e h1 h2
    simp [_get_entry_from_archive, lookup_entry, h1, h2]

def tTarget : RawEntry := ⟨"Target Page", "target body", true⟩

/-- A redirect entry aliasing `tTarget`. -/
def eRedir : Entry := ⟨"Alias", "A/alias", "", true, some tTarget⟩

/-- An archive resolving the title "Alias" to the redirect entry. -/
def aRedir : ArchiveModel :=
  ⟨"r.zim", false, fun _ => Except.error (), fun _ => Except.error (),
   fun s => if s = "Alias" then some eRedir else none, fun _ => none, 1, []⟩

/-- Enumeration for the entry-lookup witness: a raising archive first,
then the archive holding the redirect entry, then a further archive that
must never be consulted. -/
def envE : ZimEnv :=
  ⟨"/data/zim", true, fun _ => false,
   [⟨"/data/zim/b.zim", none⟩, ⟨"/data/zim/r.zim", some aRedir⟩,
    ⟨"/data/zim/a.zim", some aA⟩],
   fun _ => none⟩

/-- Witness for C8 at a concrete three-archive environment. -/
theorem entry_lookup_first_match_witness :
    get_zim_entry envE render0 "Alias" none =
      EntryResult.ok "Alias" "A/alias"
        "This page redirects to: Target Page\n\nContent:\ntarget body" "r.zim" :=
  (entry_lookup_first_match envE render0 "Alias").1
    [⟨"/data/zim/b.zim", none⟩] ⟨"/data/zim/r.zim", some aRedir⟩
    [⟨"/data/zim/a.zim", some aA⟩] aRedir "Alias" "A/alias"
    "This page redirects to: Target Page\n\nContent:\ntarget body" "r.zim"
    rfl rfl (by decide) rfl (by decide)

/-- Claim C7: when the looked-up record is a redirect (and the target's
content is readable), the returned content is the redirect notice naming
the target's title followed by the target's rendered content. -/
theorem redirect_entry_content (a : ArchiveModel) (render : String → String)
    (title : String) (e : Entry) (t : RawEntry)
    (hl : lookup_entry a title = some e)
    (hr : e.redirectTarget = some t)
    (hok : t.contentOk = true) :
    _get_entry_from_archive a render title =
      EntryResult.ok e.title e.path
        ("This page redirects to: " ++ t.title ++ "\n\nContent:\n" ++ render t.content)
        a.name := by
  simp [_get_entry_from_archive, hl, render_entry, hr, hok]

/-- Witness for C7 at the concrete redirect entry. -/
theorem redirect_entry_content_witness :
    _get_entry_from_archive aRedir render0 "Alias" =
      EntryResult.ok "Alias" "A/alias"
        ("This page redirects to: " ++ "Target Page" ++ "\n\nContent:\n" ++
          render0 "target body")
        "r.zim" :=
  redirect_entry_content aRedir render0 "Alias" eRedir tTarget (by decide) rfl rfl

/-- Claim C9: an archive name that resolves to no existing file — tried
literally, and for relative names also with the `.zim` extension
appended — makes `search_zim` return the structured not-found error with
an empty result list (the model is total, so no exception can surface). -/
theorem missing_archive_error (env : ZimEnv) (render : String → String)
    (q zf : String) (n : Nat) :
    (_resolve_zim_file env zf = none ↔
      (if isAbs zf then env.file_exists zf = false
       else env.file_exists (env.data_path ++ "/" ++ zf) = false ∧
         env.file_exists (env.data_path ++ "/" ++ zf ++ ".zim") = false)) ∧
    (_resolve_zim_file env zf = none →
      search_zim env render q (some zf) n =
        SearchResult.failure ("ZIM file not found: " ++ zf) []) := by
  constructor
  · cases hab : isAbs zf with
    | true =>
      cases hex : env.file_exists zf <;>
        simp [_resolve_zim_file, hab, hex]
    | false =>
      cases h1 : env.file_exists (env.data_path ++ "/" ++ zf) <;>
        cases h2 : env.file_exists (env.data_path ++ "/" ++ zf ++ ".zim") <;>
          simp [_resolve_zim_file, hab, h1, h2]
  · intro h
    simp [search_zim, h]

/-- Witness for C9: a relative name absent from the filesystem (with and
without the extension) yields the structured error. -/
theorem missing_archive_error_witness :
    search_zim env3 render0 "systemd" (some "missing") 5 =
      SearchResult.failure ("ZIM file not found: " ++ "missing") [] :=
  (missing_archive_error env3 render0 "systemd" "missing" 5).2 (by decide)

end ZimTools
